import Mathlib

/-
Verification of the crash diagnostics and reporting subsystem of
obs-studio-node (src/obs-studio-server/source/util-crashmanager.cpp).

The C++ code is shallowly embedded below:
  * `PrettyBytes`, `prettyLoop`         — the byte-formatting helper (lines 82-105);
  * `crashIsHandledScan`, `TryHandleCrash` — the known-crash filter (lines 400-440);
  * `RewindCallStack`, `rewindGo`       — the call-stack capturer (lines 457-565);
  * `RequestOBSLog`                     — the log-category queries (lines 567-602);
  * `HandleCrash`, `HandleExit`         — the crash guard and report assembler
                                          (lines 318-398).

Platform capabilities (stack capture, symbol resolution, memory/CPU queries,
computer name, process enumeration) are inputs of the model, exactly as the
spec treats them: an environment record carries the values those queries
would return.  `double` arithmetic in the source is modelled exactly over ℚ
(every operation the code performs on the modelled ranges is exact in
IEEE double, apart from the final printf roundings, which are modelled as
round-to-nearest-ties-to-even).  The crash-backend handoff (`SetupCrashpad`)
mutates nothing observed by any claim and is not modelled.

One behaviour of the source is load-bearing for the report assembler:
`annotations` is a `std::map<std::string, std::string>` (line 74), but the
inserts at lines 385-386 pass the raw nlohmann::json values returned by
`ComputeBreadcrumbs()` / `ComputeWarnings()`.  Those values are json null
(no messages) or a json array — never a json string — and constructing the
`std::pair<const std::string, std::string>` argument invokes the library's
implicit json-to-std::string conversion, which throws a type error for any
non-string json.  `HandleCrash` is `noexcept` (line 333), so the exception
reaches `std::terminate`; the installed terminate handler (line 226) calls
`HandleCrash` again, which finds `insideCrashMethod` still set (line 341)
and calls `abort()`.  Hence every report-assembling invocation executes
exactly the first fourteen insert calls, never reaches `SetupCrashpad` or
the `callAbort` test (lines 389-395), never clears the latch, and always
terminates the process via abort — it never returns to its caller.  The
model below reflects this: `handleCrashKvs` lists the fourteen pairs that
reach `insert`, and `HandleCrash` always reports `aborted = true` with the
latch left set.
-/

/-- Lowercase mapping applied by the two `std::transform(..., ::tolower)`
calls in `RewindCallStack`. -/
def strLower (s : String) : String :=
  String.mk (s.data.map Char.toLower)

/-- Filename extraction in `RewindCallStack`: `fullPath.rfind("\\")`, and when
found the suffix after the last backslash; the local `fileName` stays empty
when the path has no backslash. -/
def afterLastBackslash : List Char → Option (List Char)
  | [] => none
  | c :: cs =>
    match afterLastBackslash cs with
    | some r => some r
    | none => if c = '\\' then some cs else none

/-- Filename part of a full path, as computed at lines 513-516 of the source. -/
def extractFileName (fullPath : String) : String :=
  match afterLastBackslash fullPath.data with
  | some r => String.mk r
  | none => ""

/-- Address shortening at lines 526-530: find the first character that is not
a zero and, when its position is at most 4, keep the text from the position
after it (the source drops that first non-zero character as well). -/
def shortenAddr (s : String) : String :=
  match s.data.findIdx? (fun c => c ≠ '0') with
  | some pos => if pos ≤ 4 then String.mk (s.data.drop (pos + 1)) else s
  | none => s

/-- JSON escaping for one character, as nlohmann::json serializes strings. -/
def jsonEscapeChar (c : Char) : String :=
  if c = '"' then "\\\""
  else if c = '\\' then "\\\\"
  else if c = '\n' then "\\n"
  else if c = '\t' then "\\t"
  else if c = '\r' then "\\r"
  else if c.toNat < 32 then
    "\\u00" ++ String.mk [Nat.digitChar (c.toNat / 16), Nat.digitChar (c.toNat % 16)]
  else String.mk [c]

/-- JSON escaping of a whole string. -/
def jsonEscape (s : String) : String :=
  s.data.foldl (fun acc c => acc ++ jsonEscapeChar c) ""

/-- JSON string literal (quotes plus escaped body). -/
def quoteJson (s : String) : String :=
  "\"" ++ jsonEscape s ++ "\""

/-- Serialization of a json array of strings with `dump(4)`, as produced for
the log categories; a default-constructed json that never received a
`push_back` is null and dumps as "null". -/
def dumpLogJson (l : List String) : String :=
  if l = [] then "null"
  else "[\n" ++ String.intercalate ",\n" (l.map (fun s => "    " ++ quoteJson s)) ++ "\n]"

/-- Serialization with `dump(4)` of the process-list json: `RequestProcessList`
returns the json number 1 when process enumeration fails, the empty object
when it returns no entries, and otherwise one string entry per process. -/
def dumpProcessList : Option (List (String × String)) → String
  | none => "1"
  | some [] => "\x7b\x7d"
  | some l =>
    "\x7b\n" ++ String.intercalate ",\n"
      (l.map (fun p => "    " ++ quoteJson p.1 ++ ": " ++ quoteJson p.2)) ++ "\n\x7d"

/-- Round to the nearest integer, ties to even — the rounding printf applies. -/
def roundHE (q : ℚ) : Int :=
  if q - ⌊q⌋ < 1/2 then ⌊q⌋
  else if 1/2 < q - ⌊q⌋ then ⌊q⌋ + 1
  else if ⌊q⌋ % 2 = 0 then ⌊q⌋ else ⌊q⌋ + 1

/-- Truncation toward zero, the effect of a C cast from a floating value to
an integer type. -/
def qtrunc (q : ℚ) : Int :=
  if 0 ≤ q then ⌊q⌋ else ⌈q⌉

/-- Rendering with printf "%.1f" (one decimal place), for nonnegative values. -/
def fmtOneDec (q : ℚ) : String :=
  let n := roundHE (q * 10)
  toString (n / 10) ++ "." ++ toString (n % 10)

/-- Left pad with zeros to six characters. -/
def padZeros6 (s : String) : String :=
  String.mk (List.replicate (6 - s.length) '0') ++ s

/-- Rendering with `std::to_string(double)`, which is printf "%f"
(six decimal places). -/
def fmtSixDec (q : ℚ) : String :=
  let n := roundHE (q * 1000000)
  let a := n.natAbs
  (if n < 0 then "-" else "") ++ toString (a / 1000000) ++ "." ++ padZeros6 (toString (a % 1000000))

/-- Suffix table of `PrettyBytes` (lines 84-92). -/
def suffixesList : List String := ["b", "kb", "mb", "gb", "tb", "pb", "eb"]

/-- Loop of `PrettyBytes` (lines 93-98): while `count >= 1024 && s < 7`,
increment the suffix index and divide the count by 1024.  The fuel argument
is 7 at the top call; since `s` increments with every iteration and the
guard requires `s < 7`, seven iterations are an upper bound, so the fuel
never cuts the loop short and the embedding is exact. -/
def prettyLoop : Nat → Nat → ℚ → Nat × ℚ
  | 0, s, count => (s, count)
  | fuel + 1, s, count =>
    if 1024 ≤ count ∧ s < 7 then prettyLoop fuel (s + 1) (count / 1024)
    else (s, count)

/-- Byte-count rendering `PrettyBytes` (lines 82-105): scale down by 1024
per suffix step, then print either "%d" (when the scaled count is an exact
integer) or "%.1f", followed by the suffix. -/
def PrettyBytes (bytes : Nat) : String :=
  let p := prettyLoop 7 0 (bytes : ℚ)
  if p.2 - ⌊p.2⌋ = 0 then toString (qtrunc p.2) ++ suffixesList.getD p.1 ""
  else fmtOneDec p.2 ++ suffixesList.getD p.1 ""

/-- Invariant of the `PrettyBytes` loop: starting at suffix index `s` with
`s + fuel = 7` and a nonnegative count below `1024 ^ fuel`, the loop ends
with a suffix index between `s` and 6, a count in `[0, 1024)`, and the final
count is the initial count divided by 1024 once per performed step. -/
lemma prettyLoop_inv : ∀ (fuel s : Nat) (count : ℚ),
    s + fuel = 7 → s ≤ 6 → 0 ≤ count → count < 1024 ^ fuel →
    s ≤ (prettyLoop fuel s count).1 ∧ (prettyLoop fuel s count).1 ≤ 6 ∧
    0 ≤ (prettyLoop fuel s count).2 ∧ (prettyLoop fuel s count).2 < 1024 ∧
    (prettyLoop fuel s count).2 = count / 1024 ^ ((prettyLoop fuel s count).1 - s) := by
  intro fuel
  induction fuel with
  | zero => intro s count h7 h6 _ _; omega
  | succ fuel ih =>
    intro s count h7 h6 h0 hlt
    by_cases hc : 1024 ≤ count ∧ s < 7
    · have hfuel : 1 ≤ fuel := by
        by_contra hf
        have hf0 : fuel = 0 := by omega
        subst hf0
        have : count < 1024 := by
          have := hlt
          norm_num at this
          linarith
        linarith [hc.1]
      have hrec := ih (s + 1) (count / 1024) (by omega) (by omega)
        (by positivity)
        (by
          rw [div_lt_iff₀ (by norm_num : (0:ℚ) < 1024)]
          calc count < 1024 ^ (fuel + 1) := hlt
            _ = 1024 ^ fuel * 1024 := by ring
          )
      have hstep : prettyLoop (fuel + 1) s count = prettyLoop fuel (s + 1) (count / 1024) := by
        simp [prettyLoop, hc]
      rw [hstep]
      refine ⟨by omega, hrec.2.1, hrec.2.2.1, hrec.2.2.2.1, ?_⟩
      have hs1 : s + 1 ≤ (prettyLoop fuel (s + 1) (count / 1024)).1 := hrec.1
      have hsub : (prettyLoop fuel (s + 1) (count / 1024)).1 - s
          = ((prettyLoop fuel (s + 1) (count / 1024)).1 - (s + 1)) + 1 := by omega
      rw [hrec.2.2.2.2, hsub, pow_succ]
      rw [div_div]
      ring_nf
    · have hstep : prettyLoop (fuel + 1) s count = (s, count) := by
        simp [prettyLoop, hc]
      have hnc : ¬ 1024 ≤ count := fun h => hc ⟨h, by omega⟩
      rw [hstep]
      refine ⟨le_refl s, h6, h0, by linarith [lt_of_not_le hnc], ?_⟩
      simp

/-- C6: PrettyBytes renders on the suffix scale b, kb, mb, gb, tb, pb, eb,
dividing by 1024 per step until the value is below 1024 (the final count is
the input divided by 1024 once per step and lies below 1024, for every
64-bit input), one decimal place unless the scaled value is an exact
integer; in particular bytes 0, 1024, 1536 and 1073741824 render as "0b",
"1kb", "1.5kb" and "1gb". -/
theorem prettyBytes_spec :
    PrettyBytes 0 = "0b" ∧ PrettyBytes 1024 = "1kb" ∧
    PrettyBytes 1536 = "1.5kb" ∧ PrettyBytes 1073741824 = "1gb" ∧
    (∀ bytes : Nat, bytes < 2 ^ 64 →
      (prettyLoop 7 0 (bytes : ℚ)).2 = (bytes : ℚ) / 1024 ^ (prettyLoop 7 0 (bytes : ℚ)).1 ∧
      (prettyLoop 7 0 (bytes : ℚ)).2 < 1024) := by
  have e0 : PrettyBytes 0 = "0b" := by
    have h : prettyLoop 7 0 ((0 : Nat) : ℚ) = (0, 0) := by norm_num [prettyLoop]
    simp only [PrettyBytes, h]
    norm_num [qtrunc, suffixesList]
    decide
  have e1 : PrettyBytes 1024 = "1kb" := by
    have h : prettyLoop 7 0 ((1024 : Nat) : ℚ) = (1, 1) := by norm_num [prettyLoop]
    simp only [PrettyBytes, h]
    norm_num [qtrunc, suffixesList]
    decide
  have e2 : PrettyBytes 1536 = "1.5kb" := by
    have h : prettyLoop 7 0 ((1536 : Nat) : ℚ) = (1, 3 / 2) := by norm_num [prettyLoop]
    simp only [PrettyBytes, h]
    norm_num [fmtOneDec, roundHE, suffixesList]
    decide
  have e3 : PrettyBytes 1073741824 = "1gb" := by
    have h : prettyLoop 7 0 ((1073741824 : Nat) : ℚ) = (3, 1) := by norm_num [prettyLoop]
    simp only [PrettyBytes, h]
    norm_num [qtrunc, suffixesList]
    decide
  refine ⟨e0, e1, e2, e3, ?_⟩
  intro bytes hb
  have h := prettyLoop_inv 7 0 (bytes : ℚ) (by norm_num) (by norm_num)
    (by positivity)
    (by
      have : (bytes : ℚ) < (2 : ℚ) ^ 64 := by
        exact_mod_cast (by exact_mod_cast hb : (bytes : ℚ) < ((2 ^ 64 : Nat) : ℚ))
      calc (bytes : ℚ) < (2 : ℚ) ^ 64 := this
        _ < 1024 ^ 7 := by norm_num)
  refine ⟨?_, h.2.2.2.1⟩
  have := h.2.2.2.2
  simpa using this

/-- Witness for the quantified part of the PrettyBytes rendering theorem,
instantiated at 1536 bytes. -/
theorem prettyBytes_spec_inst :
    (1536 : Nat) < 2 ^ 64 ∧
    ((prettyLoop 7 0 ((1536 : Nat) : ℚ)).2
        = ((1536 : Nat) : ℚ) / 1024 ^ (prettyLoop 7 0 ((1536 : Nat) : ℚ)).1 ∧
      (prettyLoop 7 0 ((1536 : Nat) : ℚ)).2 < 1024) :=
  ⟨by norm_num, prettyBytes_spec.2.2.2.2 1536 (by norm_num)⟩

/-- C10: for every 64-bit input the suffix-selection loop stops with suffix
index at most 6 — strictly inside the bounds of the 7-element suffix table —
because the loop exits through its `count < 1024` test (the final count is
below 1024) before the index can reach 7. -/
theorem prettyLoop_bounds : ∀ bytes : Nat, bytes < 2 ^ 64 →
    (prettyLoop 7 0 (bytes : ℚ)).1 ≤ 6 ∧
    (prettyLoop 7 0 (bytes : ℚ)).1 < suffixesList.length ∧
    (prettyLoop 7 0 (bytes : ℚ)).2 < 1024 := by
  intro bytes hb
  have h := prettyLoop_inv 7 0 (bytes : ℚ) (by norm_num) (by norm_num)
    (by positivity)
    (by
      have : (bytes : ℚ) < (2 : ℚ) ^ 64 := by
        exact_mod_cast (by exact_mod_cast hb : (bytes : ℚ) < ((2 ^ 64 : Nat) : ℚ))
      calc (bytes : ℚ) < (2 : ℚ) ^ 64 := this
        _ < 1024 ^ 7 := by norm_num)
  refine ⟨h.2.1, ?_, h.2.2.2.1⟩
  have h6 := h.2.1
  simp [suffixesList]
  omega

/-- Witness for the loop-bound theorem at the largest 64-bit value. -/
theorem prettyLoop_bounds_inst :
    (2 ^ 64 - 1 : Nat) < 2 ^ 64 ∧
    ((prettyLoop 7 0 ((2 ^ 64 - 1 : Nat) : ℚ)).1 ≤ 6 ∧
      (prettyLoop 7 0 ((2 ^ 64 - 1 : Nat) : ℚ)).1 < suffixesList.length ∧
      (prettyLoop 7 0 ((2 ^ 64 - 1 : Nat) : ℚ)).2 < 1024) :=
  ⟨by norm_num, prettyLoop_bounds (2 ^ 64 - 1) (by norm_num)⟩

/-- Substring test of `std::string::find(...) != npos`: the needle occurs
contiguously in the haystack (case-sensitive; an empty needle is found at
position 0, matching the contiguous-sublist reading). -/
def strContainsSub (hay pat : String) : Bool :=
  decide (pat.data <:+: hay.data)

/-- Signature list populated by `util::CrashManager::Configure`
(lines 261-272). -/
def handledOBSCrashesConfigured : List String :=
  ["Failed to recreate D3D11"]

/-- Classification loop of `TryHandleCrash` (lines 407-413): scan the
configured signatures and stop at the first one found inside the raw format
string. -/
def crashIsHandledScan : List String → String → Bool
  | [], _ => false
  | sig :: rest, fm => if strContainsSub fm sig then true else crashIsHandledScan rest fm

/-- Result of `TryHandleCrash`: the unknown case returns false to the caller;
for a known crash the function attempts a normal shutdown (`destroyOBS_API`
then `exit(0)`), and when that throws it escalates into `HandleCrash` with
the fully-formatted message. -/
inductive TryOutcome where
  | returnedFalse : TryOutcome
  | exited : TryOutcome
  | crashed : String → TryOutcome
deriving DecidableEq

/-- Control flow of `TryHandleCrash` (lines 400-440), with the raw format
string, the formatted message, and whether the graceful shutdown succeeds
as inputs. -/
def TryHandleCrash (sigs : List String) (fm crashMessage : String) (destroyOk : Bool) : TryOutcome :=
  if crashIsHandledScan sigs fm then
    (if destroyOk then TryOutcome.exited else TryOutcome.crashed crashMessage)
  else TryOutcome.returnedFalse

/-- C1: the known-crash filter classifies a fault as known exactly when some
configured signature is a contiguous case-sensitive substring of the raw
format string (the formatted message never enters the classification), and
`TryHandleCrash` returns false exactly when no signature is contained. -/
theorem tryHandleCrash_known_iff (sigs : List String) (fm crashMessage : String) (destroyOk : Bool) :
    (crashIsHandledScan sigs fm = true ↔ ∃ sig ∈ sigs, sig.data <:+: fm.data)
    ∧ (TryHandleCrash sigs fm crashMessage destroyOk = TryOutcome.returnedFalse
        ↔ ¬ ∃ sig ∈ sigs, sig.data <:+: fm.data) := by
  have hscan : ∀ l : List String, crashIsHandledScan l fm = true ↔ ∃ sig ∈ l, sig.data <:+: fm.data := by
    intro l
    induction l with
    | nil => simp [crashIsHandledScan]
    | cons sig rest ih =>
      cases hs : strContainsSub fm sig with
      | true =>
        simp only [crashIsHandledScan, hs]
        simp only [if_true, true_iff]
        exact ⟨sig, List.mem_cons_self sig rest,
          of_decide_eq_true (by simpa [strContainsSub] using hs)⟩
      | false =>
        simp only [crashIsHandledScan, hs]
        simp only [Bool.false_eq_true, if_false]
        rw [ih]
        constructor
        · rintro ⟨s, hmem, hinf⟩
          exact ⟨s, List.mem_cons_of_mem sig hmem, hinf⟩
        · rintro ⟨s, hmem, hinf⟩
          rcases List.mem_cons.mp hmem with heq | hmem2
          · subst heq
            simp [strContainsSub, decide_eq_true hinf] at hs
          · exact ⟨s, hmem2, hinf⟩
  refine ⟨hscan sigs, ?_⟩
  by_cases hc : crashIsHandledScan sigs fm
  · have hex := (hscan sigs).mp hc
    simp only [TryHandleCrash, hc, if_true]
    constructor
    · intro h
      by_cases hd : destroyOk <;> simp [hd] at h
    · intro h
      exact absurd hex h
  · have hnex := fun h => hc ((hscan sigs).mpr h)
    simp only [TryHandleCrash, hc, if_false]
    simpa using hnex

/-- Result of the platform symbol resolution for one captured address:
`SymFromAddr` and `SymGetLineFromAddr64` must both succeed, in which case
they provide the symbol name, the source path, the line number, the
stream rendering of the instruction address, and the numeric symbol
address. -/
structure FrameSym where
  name : String
  fullPath : String
  lineNumber : Nat
  addrStream : String
  symbolAddr : Nat
deriving DecidableEq

/-- One captured raw frame: either the platform resolved it or it did not
(the source treats a failure of either resolution call as unresolved). -/
structure RawFrame where
  resolution : Option FrameSym
deriving DecidableEq

/-- One emitted call-stack entry, with the json fields built at lines
536-551 of the source; `inApp` is present (false) only for runtime-library
frames, `framesOmitted` only on the frame that absorbs a pending run of
unresolved frames. -/
structure CallStackEntry where
  functionName : String
  fileName : String
  lineno : Nat
  instructionAddr : String
  symbolAddr : String
  inApp : Option Bool
  framesOmitted : Option (String × String)
deriving DecidableEq

/-- Entry used as the out-of-range default of list lookups in statements. -/
def emptyEntry : CallStackEntry :=
  ⟨"", "", 0, "", "", none, none⟩

/-- Emitted entry for frame index `i` resolved as `sym` while the pending
run of unresolved indices is `missing` (lines 505-551): the
`frames omitted` attribute pairs the back of the pending vector with the
current frame index. -/
def mkEntry (i : Nat) (sym : FrameSym) (missing : List Nat) : CallStackEntry :=
  { functionName := sym.name
    fileName := extractFileName sym.fullPath
    lineno := sym.lineNumber
    instructionAddr := "0x" ++ strLower (shortenAddr sym.addrStream)
    symbolAddr := "0x" ++ strLower (toString sym.symbolAddr)
    inApp := if sym.name.take 5 = "std::" ∨ sym.name.take 2 = "__" then some false else none
    framesOmitted :=
      match missing.getLast? with
      | some back => some (toString back, toString i)
      | none => none }

/-- Body of the frame loop of `RewindCallStack` (lines 497-557), iterating
over (index, frame) pairs in the order the `for` statement visits them:
an unresolved frame appends its index to the pending `missingFrames`
vector; a resolved frame whose file is this subsystem's own source is
skipped entirely; any other resolved frame is emitted (absorbing the
pending run) and becomes the current crashed method. -/
def rewindGo : List (Nat × RawFrame) → List Nat → List CallStackEntry → Option String →
    List CallStackEntry × Option String
  | [], _, acc, crashed => (acc, crashed)
  | (i, fr) :: rest, missing, acc, crashed =>
    match fr.resolution with
    | none => rewindGo rest (missing ++ [i]) acc crashed
    | some sym =>
      if extractFileName sym.fullPath = "util-crashmanager.cpp" then
        rewindGo rest missing acc crashed
      else
        rewindGo rest [] (acc ++ [mkEntry i sym missing]) (some sym.name)

/-- Pairs (index, frame) in the order `for (int i = frames - 1; i >= skip; i--)`
visits them: ascending capture order (index 0 is the innermost frame, as
`RtlCaptureStackBackTrace` returns it), restricted to indices at least
`skip`, then reversed. -/
def rewindPairs (stack : List RawFrame) (frames skip : Nat) : List (Nat × RawFrame) :=
  ((stack.take frames).enum.filter (fun p => decide (skip ≤ p.1))).reverse

/-- Frame count actually rendered: the capture is limited to 62 raw
addresses (`kMaxCallers`) and the rendering to 50 (`MAX_CALLERS_SHOWN`),
lines 474-495. -/
def framesShown (stack : List RawFrame) : Nat :=
  min (min stack.length 62) 50

/-- The call-stack capturer `RewindCallStack` (lines 457-565): returns the
emitted entries and the crashed-method name (none when no frame was
emitted, matching the caller's string staying untouched). -/
def RewindCallStack (stack : List RawFrame) (skip : Nat) : List CallStackEntry × Option String :=
  rewindGo (rewindPairs stack (framesShown stack) skip) [] [] none

/-- Emission test for a pair: a frame is emitted iff it resolved and its
file is not the capturer's own source file. -/
def pairEmitted (p : Nat × RawFrame) : Bool :=
  match p.2.resolution with
  | none => false
  | some sym => if extractFileName sym.fullPath = "util-crashmanager.cpp" then false else true

/-- Function name carried by a pair (empty for unresolved frames; only used
under `pairEmitted`). -/
def pairName (p : Nat × RawFrame) : String :=
  match p.2.resolution with
  | none => ""
  | some sym => sym.name

/-- Names of ascending-capture-order emitted frames (innermost first). -/
def emittedAsc (stack : List RawFrame) (skip : Nat) : List String :=
  (((stack.take (framesShown stack)).enum.filter
      (fun p => pairEmitted p && decide (skip ≤ p.1))).map pairName)

/-- Unfolding step of `rewindGo` on a resolved, non-self frame. -/
lemma rewindGo_keep {i : Nat} {sym : FrameSym} {rest : List (Nat × RawFrame)}
    {missing : List Nat} {acc : List CallStackEntry} {crashed : Option String}
    (h : extractFileName sym.fullPath ≠ "util-crashmanager.cpp") :
    rewindGo ((i, ⟨some sym⟩) :: rest) missing acc crashed
      = rewindGo rest [] (acc ++ [mkEntry i sym missing]) (some sym.name) := by
  simp only [rewindGo]
  rw [if_neg h]

/-- Unfolding step of `rewindGo` on an unresolved frame. -/
lemma rewindGo_drop {i : Nat} {rest : List (Nat × RawFrame)} {missing : List Nat}
    {acc : List CallStackEntry} {crashed : Option String} :
    rewindGo ((i, ⟨none⟩) :: rest) missing acc crashed
      = rewindGo rest (missing ++ [i]) acc crashed := rfl

/-- Unfolding of `rewindGo` on the empty list. -/
lemma rewindGo_nil {missing : List Nat} {acc : List CallStackEntry} {crashed : Option String} :
    rewindGo [] missing acc crashed = (acc, crashed) := rfl

/-- The emitted entries of the frame loop are, in processing order, exactly
the resolved non-self frames, with their function names. -/
lemma rewindGo_map_fn (ps : List (Nat × RawFrame)) : ∀ (missing : List Nat)
    (acc : List CallStackEntry) (crashed : Option String),
    (rewindGo ps missing acc crashed).1.map CallStackEntry.functionName
      = acc.map CallStackEntry.functionName ++ (ps.filter pairEmitted).map pairName := by
  induction ps with
  | nil => intro missing acc crashed; simp [rewindGo]
  | cons p rest ih =>
    intro missing acc crashed
    obtain ⟨i, fr⟩ := p
    cases hfr : fr.resolution with
    | none =>
      simp only [rewindGo, hfr]
      rw [ih]
      simp [pairEmitted, hfr]
    | some sym =>
      by_cases hf : extractFileName sym.fullPath = "util-crashmanager.cpp"
      · simp only [rewindGo, hfr, if_pos hf]
        rw [ih]
        simp [pairEmitted, hfr, hf]
      · simp only [rewindGo, hfr, if_neg hf]
        rw [ih]
        simp [pairEmitted, pairName, hfr, hf, mkEntry]

/-- The crashed-method accumulator of the frame loop is the last emitted
frame in processing order (or the incoming value when none is emitted). -/
lemma rewindGo_crashed (ps : List (Nat × RawFrame)) : ∀ (missing : List Nat)
    (acc : List CallStackEntry) (crashed : Option String),
    (rewindGo ps missing acc crashed).2
      = (ps.filter pairEmitted).foldl (fun _ p => some (pairName p)) crashed := by
  induction ps with
  | nil => intro missing acc crashed; simp [rewindGo]
  | cons p rest ih =>
    intro missing acc crashed
    obtain ⟨i, fr⟩ := p
    cases hfr : fr.resolution with
    | none =>
      simp only [rewindGo, hfr]
      rw [ih]
      simp [pairEmitted, hfr]
    | some sym =>
      by_cases hf : extractFileName sym.fullPath = "util-crashmanager.cpp"
      · simp only [rewindGo, hfr, if_pos hf]
        rw [ih]
        simp [pairEmitted, hfr, hf]
      · simp only [rewindGo, hfr, if_neg hf]
        rw [ih]
        simp [pairEmitted, pairName, hfr, hf]

/-- Folding "remember the last name" over a list yields its last element. -/
lemma foldl_some_getLast (l : List (Nat × RawFrame)) :
    l.foldl (fun _ p => some (pairName p)) none = (l.map pairName).getLast? := by
  induction l using List.reverseRecOn with
  | nil => rfl
  | append_singleton l p _ =>
    rw [List.foldl_append, List.map_append]
    simp [List.getLast?_concat]

/-- C5 (amended): the frame loop processes the captured frames from the
outermost (highest capture index) down to index `skip` — the emitted
sequence is the reverse of the ascending innermost-first order — and the
crashed-method output is the head of the ascending emitted order, i.e. the
function name of the innermost successfully resolved frame that is not
filtered out as the capturer's own; self-filtered frames never provide the
crashed-method name. -/
theorem rewindCallStack_order_spec (stack : List RawFrame) (skip : Nat) :
    (RewindCallStack stack skip).1.map CallStackEntry.functionName
        = (emittedAsc stack skip).reverse
    ∧ (RewindCallStack stack skip).2 = (emittedAsc stack skip).head? := by
  have hfilters : (rewindPairs stack (framesShown stack) skip).filter pairEmitted
      = ((stack.take (framesShown stack)).enum.filter
          (fun p => pairEmitted p && decide (skip ≤ p.1))).reverse := by
    rw [rewindPairs, List.filter_reverse, List.filter_filter]
  constructor
  · rw [RewindCallStack, rewindGo_map_fn, hfilters]
    simp [emittedAsc]
  · rw [RewindCallStack, rewindGo_crashed, hfilters, foldl_some_getLast]
    simp [emittedAsc]

/-- Resolved innermost frame of the two-frame demonstration stack. -/
def innerSym : FrameSym :=
  ⟨"innerFn", "C:\\src\\app.cpp", 10, "0000a1", 11⟩

/-- Resolved outermost frame of the two-frame demonstration stack. -/
def outerSym : FrameSym :=
  ⟨"outerFn", "C:\\src\\app.cpp", 20, "0000a2", 12⟩

/-- Two captured frames, index 0 innermost (capture order), both resolved. -/
def orderDemoStack : List RawFrame :=
  [⟨some innerSym⟩, ⟨some outerSym⟩]

/-- Counterexample to C5 as stated: on a two-frame capture the emitted
sequence is outermost first (["outerFn", "innerFn"]), not the
innermost-to-outermost order ["innerFn", "outerFn"] the claim describes,
and the crashed-method output is the innermost frame's name, not the name
of the last frame in innermost-to-outermost order. -/
theorem rewindCallStack_order_cex :
    (RewindCallStack orderDemoStack 0).1.map CallStackEntry.functionName = ["outerFn", "innerFn"]
    ∧ ¬ ((RewindCallStack orderDemoStack 0).1.map CallStackEntry.functionName
          = ["innerFn", "outerFn"])
    ∧ (RewindCallStack orderDemoStack 0).2 = some "innerFn"
    ∧ (some "innerFn" : Option String) ≠ some "outerFn" := by
  decide

/-- C4 (amended): a ten-frame capture (skip 0, no self-filtered frames) in
which resolution fails exactly at capture indices 3, 4 and 5 emits 7
entries; the entry emitted immediately after the gap (position 4, frame
index 2) absorbs the whole failed run in a single omitted-range attribute,
whose value is ("3", "2") — the back of the pending omitted vector paired
with the index of the absorbing frame — and no other entry carries an
omitted-range attribute. -/
theorem rewindCallStack_gap_compression (a0 a1 a2 a6 a7 a8 a9 : FrameSym)
    (stack : List RawFrame)
    (hstack : stack = [⟨some a0⟩, ⟨some a1⟩, ⟨some a2⟩, ⟨none⟩, ⟨none⟩, ⟨none⟩,
      ⟨some a6⟩, ⟨some a7⟩, ⟨some a8⟩, ⟨some a9⟩])
    (h0 : extractFileName a0.fullPath ≠ "util-crashmanager.cpp")
    (h1 : extractFileName a1.fullPath ≠ "util-crashmanager.cpp")
    (h2 : extractFileName a2.fullPath ≠ "util-crashmanager.cpp")
    (h6 : extractFileName a6.fullPath ≠ "util-crashmanager.cpp")
    (h7 : extractFileName a7.fullPath ≠ "util-crashmanager.cpp")
    (h8 : extractFileName a8.fullPath ≠ "util-crashmanager.cpp")
    (h9 : extractFileName a9.fullPath ≠ "util-crashmanager.cpp") :
    (RewindCallStack stack 0).1.length = 7
    ∧ ((RewindCallStack stack 0).1.getD 4 emptyEntry).framesOmitted = some ("3", "2")
    ∧ ∀ j, j ≠ 4 → ((RewindCallStack stack 0).1.getD j emptyEntry).framesOmitted = none := by
  subst hstack
  have hr : RewindCallStack [⟨some a0⟩, ⟨some a1⟩, ⟨some a2⟩, ⟨none⟩, ⟨none⟩, ⟨none⟩,
      ⟨some a6⟩, ⟨some a7⟩, ⟨some a8⟩, ⟨some a9⟩] 0
      = rewindGo [(9, ⟨some a9⟩), (8, ⟨some a8⟩), (7, ⟨some a7⟩), (6, ⟨some a6⟩),
          (5, ⟨none⟩), (4, ⟨none⟩), (3, ⟨none⟩),
          (2, ⟨some a2⟩), (1, ⟨some a1⟩), (0, ⟨some a0⟩)] [] [] none := rfl
  rw [hr, rewindGo_keep h9, rewindGo_keep h8, rewindGo_keep h7, rewindGo_keep h6,
    rewindGo_drop, rewindGo_drop, rewindGo_drop,
    rewindGo_keep h2, rewindGo_keep h1, rewindGo_keep h0, rewindGo_nil]
  refine ⟨rfl, rfl, ?_⟩
  intro j hj
  exact match j, hj with
  | 0, _ => rfl
  | 1, _ => rfl
  | 2, _ => rfl
  | 3, _ => rfl
  | 4, h => absurd rfl h
  | 5, _ => rfl
  | 6, _ => rfl
  | n + 7, _ => rfl

/-- Resolved frame used in the gap-compression scenario, indexed by the
capture position it stands at. -/
def gapSym (i : Nat) : FrameSym :=
  ⟨"fn" ++ toString i, "C:\\src\\app.cpp", i, "0000a3", 100 + i⟩

/-- Ten captured frames with resolution failures exactly at capture
indices 3, 4 and 5. -/
def gapDemoStack : List RawFrame :=
  [⟨some (gapSym 0)⟩, ⟨some (gapSym 1)⟩, ⟨some (gapSym 2)⟩, ⟨none⟩, ⟨none⟩, ⟨none⟩,
    ⟨some (gapSym 6)⟩, ⟨some (gapSym 7)⟩, ⟨some (gapSym 8)⟩, ⟨some (gapSym 9)⟩]

/-- Counterexample to C4 as stated: the ten-frame capture with failures at
frames 3-5 emits 7 entries, not 8, and the attribute carried by the frame
after the gap is ("3", "2"), not the omitted range 3 to 5. -/
theorem rewindCallStack_gap_cex :
    (RewindCallStack gapDemoStack 0).1.length = 7
    ∧ (RewindCallStack gapDemoStack 0).1.length ≠ 8
    ∧ ((RewindCallStack gapDemoStack 0).1.getD 4 emptyEntry).framesOmitted = some ("3", "2")
    ∧ ∀ e ∈ (RewindCallStack gapDemoStack 0).1,
        e.framesOmitted ≠ some ("3", "5") ∧ e.framesOmitted ≠ some ("5", "3") := by
  decide

/-- Witness for the gap-compression theorem at a concrete ten-frame stack. -/
theorem rewindCallStack_gap_compression_inst :
    (RewindCallStack gapDemoStack 0).1.length = 7
    ∧ ((RewindCallStack gapDemoStack 0).1.getD 4 emptyEntry).framesOmitted = some ("3", "2")
    ∧ ∀ j, j ≠ 4 → ((RewindCallStack gapDemoStack 0).1.getD j emptyEntry).framesOmitted = none :=
  rewindCallStack_gap_compression (gapSym 0) (gapSym 1) (gapSym 2) (gapSym 6) (gapSym 7)
    (gapSym 8) (gapSym 9) gapDemoStack rfl (by decide) (by decide) (by decide) (by decide)
    (by decide) (by decide) (by decide)

/-- Buffered log categories held by the external OBS API layer: errors and
warnings are vectors, the general log is a FIFO queue. -/
structure OBSLogState where
  errors : List String
  warnings : List String
  general : List String
deriving DecidableEq

/-- Log category selector of `RequestOBSLog`. -/
inductive OBSLogType where
  | Errors : OBSLogType
  | Warnings : OBSLogType
  | General : OBSLogType
deriving DecidableEq

/-- Vector traversal of the errors/warnings branches (lines 575-586): push
every message into the json result, leaving the buffer untouched. -/
def pushAll (acc : List String) : List String → List String
  | [] => acc
  | msg :: rest => pushAll (acc ++ [msg]) rest

/-- Queue drain of the general branch (lines 591-595): repeatedly push the
front and pop it until the queue is empty; returns the collected messages
and the remaining queue. -/
def drainGeneral (acc : List String) : List String → List String × List String
  | [] => (acc, [])
  | msg :: rest => drainGeneral (acc ++ [msg]) rest

/-- The log query `RequestOBSLog` (lines 567-602): returns the collected
messages of the requested category together with the log state after the
call (the general queue is consumed, the other two buffers stay). -/
def RequestOBSLog : OBSLogType → OBSLogState → List String × OBSLogState
  | OBSLogType.Errors, st => (pushAll [] st.errors, st)
  | OBSLogType.Warnings, st => (pushAll [] st.warnings, st)
  | OBSLogType.General, st =>
    ((drainGeneral [] st.general).1, { st with general := (drainGeneral [] st.general).2 })

/-- Pushing every element of a list after an accumulator appends them. -/
lemma pushAll_eq : ∀ (l acc : List String), pushAll acc l = acc ++ l := by
  intro l
  induction l with
  | nil => intro acc; simp [pushAll]
  | cons msg rest ih =>
    intro acc
    rw [pushAll, ih]
    simp

/-- Draining a queue collects it in order and leaves it empty. -/
lemma drainGeneral_eq : ∀ (l acc : List String), drainGeneral acc l = (acc ++ l, []) := by
  intro l
  induction l with
  | nil => intro acc; simp [drainGeneral]
  | cons msg rest ih =>
    intro acc
    rw [drainGeneral, ih]
    simp

/-- C8: RequestOBSLog returns the errors and warnings buffers in order
without changing any state; the general query returns the buffered general
messages in order and leaves the general queue empty (errors and warnings
untouched), so a second general query returns an empty result. -/
theorem requestOBSLog_spec (st : OBSLogState) :
    RequestOBSLog OBSLogType.Errors st = (st.errors, st)
    ∧ RequestOBSLog OBSLogType.Warnings st = (st.warnings, st)
    ∧ (RequestOBSLog OBSLogType.General st).1 = st.general
    ∧ (RequestOBSLog OBSLogType.General st).2
        = { errors := st.errors, warnings := st.warnings, general := [] }
    ∧ (RequestOBSLog OBSLogType.General ((RequestOBSLog OBSLogType.General st).2)).1 = [] := by
  refine ⟨?_, ?_, ?_, ?_, ?_⟩ <;>
    simp [RequestOBSLog, pushAll_eq, drainGeneral_eq]

/-- Serialization with `dump(4)` of one call-stack entry as built at lines
536-551: a json object whose keys nlohmann::json stores sorted ("filename",
"frames omitted", "function", "in app", "instruction addr", "lineno",
"symbol addr"), the optional fields present only when set. -/
def dumpEntry (e : CallStackEntry) : String :=
  let fields : List String :=
    ["\"filename\": " ++ quoteJson e.fileName]
    ++ (match e.framesOmitted with
        | some p => ["\"frames omitted\": [\n            " ++ quoteJson p.1 ++ ",\n            "
            ++ quoteJson p.2 ++ "\n        ]"]
        | none => [])
    ++ ["\"function\": " ++ quoteJson e.functionName]
    ++ (match e.inApp with
        | some b => ["\"in app\": " ++ (if b then "true" else "false")]
        | none => [])
    ++ ["\"instruction addr\": " ++ quoteJson e.instructionAddr,
        "\"lineno\": " ++ toString e.lineno,
        "\"symbol addr\": " ++ quoteJson e.symbolAddr]
  "    \x7b\n" ++ String.intercalate ",\n" (fields.map (fun f => "        " ++ f)) ++ "\n    \x7d"

/-- Serialization with `dump(4)` of the call-stack json array
(`RewindCallStack` returns `json::array()`, so an empty capture dumps
as the empty array, not as null). -/
def dumpCallStack (entries : List CallStackEntry) : String :=
  if entries = [] then "[]"
  else "[\n" ++ String.intercalate ",\n" (entries.map dumpEntry) ++ "\n]"

/-- Environment of one `HandleCrash` invocation: everything the report
assembler reads from the platform and the process, exactly the values the
out-of-scope queries would produce at that moment.  A failed computer-name
query is `none` (the name string stays empty, lines 144-156); a failed
process enumeration is `none` (json number 1, line 166); the memory and
CPU sentinels of a failed usage query are the -1 values of lines 132-141. -/
structure CrashEnv where
  stack : List RawFrame
  timeElapsedSecs : Nat
  obsInit : Bool
  bnumAllocs : Nat
  totalPhysMem : Int
  physMemUsed : Int
  physMemUsedByMe : Nat
  totalCPUUsed : ℚ
  computerNameQuery : Option String
  processListQuery : Option (List (String × String))
  breadcrumbs : List String
  warningsLog : List String

/-- Mutable state of the crash manager across invocations: the reentrancy
latch `insideCrashMethod` (line 340), the process-global `annotations` map
(line 74), and the external log buffers (the general queue is drained by
report assembly). -/
structure CMState where
  insideCrashMethod : Bool
  annotationsMap : List (String × String)
  obsLogs : OBSLogState
deriving DecidableEq

/-- Effect of one `std::map::insert` call: a key already present keeps its
value (insert does not overwrite); a new key is added. -/
def mapInsert (m : List (String × String)) (kv : String × String) : List (String × String) :=
  if m.any (fun e => e.1 == kv.1) then m else m ++ [kv]

/-- Conversion of a signed 64-bit value to `uint64_t`, as `PrettyBytes`
receives the possibly-negative sentinel memory values. -/
def uint64OfInt (i : Int) : Nat :=
  (i % (2 ^ 64 : Int)).toNat

/-- Result of one `HandleCrash` invocation: the state afterwards, the
key/value pairs the invocation passed to `annotations.insert` in order,
and whether the invocation terminated the process via `abort`. -/
structure HCResult where
  state : CMState
  inserted : List (String × String)
  aborted : Bool
deriving DecidableEq

/-- Key/value pairs a report-assembling invocation of `HandleCrash` passes
to `annotations.insert`: the call stack is rewound first (line 350), the
usage, name and elapsed-time queries are read (lines 352-363), and the
insert calls of lines 366-384 run in order.  Values a failed platform query
could not provide degrade to the sentinels described on `CrashEnv`; none of
these fourteen inserts is conditional.  The two further insert statements
at lines 385-386 ("Breadcrumbs", "Warnings") never pass a pair to the map:
constructing their argument converts a null-or-array nlohmann::json to
std::string, which throws (see the module comment), so this list ends at
"Warnings"'s predecessor, the fourteenth executed insert. -/
def handleCrashKvs (env : CrashEnv) (st : CMState) (crashInfo : String) :
    List (String × String) :=
    let callStack := (RewindCallStack env.stack 0).1
    let computerName := env.computerNameQuery.getD ""
    [
      ("Time elapsed: ", toString env.timeElapsedSecs ++ "s"),
      ("Status", if env.obsInit then "initialized" else "shutdown"),
      ("Leaks", toString env.bnumAllocs),
      ("Total memory", PrettyBytes (uint64OfInt env.totalPhysMem)),
      ("Total used memory", PrettyBytes (uint64OfInt env.physMemUsed) ++ " - percentage: "
        ++ fmtSixDec ((env.physMemUsed : ℚ) / (env.totalPhysMem : ℚ)) ++ "%"),
      ("Total SLOBS memory", PrettyBytes env.physMemUsedByMe ++ " - percentage: "
        ++ fmtSixDec ((env.physMemUsedByMe : ℚ) / (env.totalPhysMem : ℚ)) ++ "%"),
      ("CPU usage", toString (qtrunc env.totalCPUUsed) ++ "%"),
      ("OBS errors", dumpLogJson (RequestOBSLog OBSLogType.Errors st.obsLogs).1),
      ("OBS warnings", dumpLogJson (RequestOBSLog OBSLogType.Warnings st.obsLogs).1),
      ("OBS log general", dumpLogJson (RequestOBSLog OBSLogType.General st.obsLogs).1),
      ("Process List", dumpProcessList env.processListQuery),
      ("Manual callstack", dumpCallStack callStack),
      ("Crash reason", crashInfo),
      ("Computer name", computerName)]

/-- The crash guard and report assembler `HandleCrash` proper: a re-entered
invocation (latch already set) aborts at once with no report work (lines
340-342); otherwise the latch is set and the fourteen executed inserts of
`handleCrashKvs` run in order against the global map (the general log
queue being drained by the tenth), after which the fifteenth insert's
argument construction throws inside this noexcept function: the process
terminates through std::terminate re-entering `HandleCrash` and hitting
the latch's `abort()`.  Every invocation therefore ends in abort with the
latch still set — the `callAbort` parameter is kept from the source's
signature, but control never reaches the `if (callAbort)` at line 392 and
never returns. -/
def HandleCrash (env : CrashEnv) (st : CMState) (crashInfo : String) (callAbort : Bool) : HCResult :=
  if st.insideCrashMethod then ⟨st, [], true⟩
  else
    let kvs := handleCrashKvs env st crashInfo
    let newMap := kvs.foldl mapInsert st.annotationsMap
    let newLogs := (RequestOBSLog OBSLogType.General st.obsLogs).2
    ⟨⟨true, newMap, newLogs⟩, kvs, true⟩

/-- The exit hook `HandleExit` (lines 318-331): when the engine still
reports itself initialized at normal process exit, invoke `HandleCrash`
with reason "AtExit" and `callAbort = false` (the explicit abort of line
392 is not requested, though the invocation still aborts through the
throwing insert); with the engine inactive, do nothing. -/
def HandleExit (env : CrashEnv) (st : CMState) : Option HCResult :=
  if env.obsInit then some (HandleCrash env st "AtExit" false) else none

/-- Characterization of a report-assembling (non-reentrant) invocation of
`HandleCrash`: the latch stays set, the map received the fourteen executed
inserts, the general log queue is drained, the inserted pairs are
`handleCrashKvs`, and the invocation aborts. -/
lemma handleCrash_notInside (env : CrashEnv) (st : CMState) (info : String) (ab : Bool)
    (h : st.insideCrashMethod = false) :
    HandleCrash env st info ab
      = ⟨⟨true, (handleCrashKvs env st info).foldl mapInsert st.annotationsMap,
          (RequestOBSLog OBSLogType.General st.obsLogs).2⟩,
        handleCrashKvs env st info, true⟩ := by
  simp [HandleCrash, h]

/-- Pairs passed to `annotations.insert` by a report-assembling invocation. -/
lemma handleCrash_inserted (env : CrashEnv) (st : CMState) (info : String) (ab : Bool)
    (h : st.insideCrashMethod = false) :
    (HandleCrash env st info ab).inserted = handleCrashKvs env st info := by
  simp [handleCrash_notInside env st info ab h]

/-- Every invocation of `HandleCrash` — reentrant or report-assembling —
terminates the process via abort and never returns to its caller. -/
lemma handleCrash_always_aborts (env : CrashEnv) (st : CMState) (info : String) (ab : Bool) :
    (HandleCrash env st info ab).aborted = true := by
  cases hin : st.insideCrashMethod with
  | true => simp [HandleCrash, hin]
  | false => rw [handleCrash_notInside env st info ab hin]

/-- Keys of the fourteen insert calls that execute (lines 366-384), in
order.  The first literal in the source is "Time elapsed: " — the key text
carries a trailing colon and space — and the product-specific key is
"Total SLOBS memory".  "Breadcrumbs" and "Warnings" (lines 385-386) are
absent: those inserts' argument construction throws before insert runs. -/
def crashReportKeys : List String :=
  ["Time elapsed: ", "Status", "Leaks", "Total memory", "Total used memory",
    "Total SLOBS memory", "CPU usage", "OBS errors", "OBS warnings", "OBS log general",
    "Process List", "Manual callstack", "Crash reason", "Computer name"]

/-- Keys of the executed inserts, directly from the pair list. -/
lemma handleCrashKvs_keys (env : CrashEnv) (st : CMState) (info : String) :
    (handleCrashKvs env st info).map Prod.fst = crashReportKeys := by
  simp [handleCrashKvs, crashReportKeys]

/-- Key contract exactly as the specification lists it, with the product
placeholder instantiated to SLOBS. -/
def claimedContractKeys : List String :=
  ["Time elapsed", "Status", "Leaks", "Total memory", "Total used memory",
    "Total SLOBS memory", "CPU usage", "OBS errors", "OBS warnings", "OBS log general",
    "Process List", "Manual callstack", "Crash reason", "Computer name",
    "Breadcrumbs", "Warnings"]

/-- Empty log buffers for demonstration runs. -/
def demoLogs : OBSLogState := ⟨[], [], []⟩

/-- Crash-manager state before any crash: latch clear, empty annotation map. -/
def demoState : CMState := ⟨false, [], demoLogs⟩

/-- Crash-manager state with the reentrancy latch already set (a fault is
being processed). -/
def stInside : CMState := ⟨true, [], demoLogs⟩

/-- Concrete environment for demonstration runs: engine active, small
snapshot values, empty logs and an empty capture. -/
def demoEnv : CrashEnv :=
  { stack := []
    timeElapsedSecs := 5
    obsInit := true
    bnumAllocs := 0
    totalPhysMem := 2048
    physMemUsed := 1024
    physMemUsedByMe := 512
    totalCPUUsed := 0
    computerNameQuery := some "pc"
    processListQuery := some []
    breadcrumbs := []
    warningsLog := [] }

/-- C2: a reentrant invocation of HandleCrash (latch already set) aborts the
process at once, assembles nothing (no insert call runs) and leaves the
whole crash-manager state — the annotation map included — untouched, so
only the fault that set the latch is ever fully processed. -/
theorem handleCrash_reentrant (env : CrashEnv) (st : CMState) (info : String) (ab : Bool)
    (h : st.insideCrashMethod = true) :
    HandleCrash env st info ab = ⟨st, [], true⟩ := by
  simp [HandleCrash, h]

/-- Witness: the reentrant short-circuit at a concrete state. -/
theorem handleCrash_reentrant_inst :
    HandleCrash demoEnv stInside "SecondFault" false = ⟨stInside, [], true⟩ :=
  handleCrash_reentrant demoEnv stInside "SecondFault" false rfl

/-- C3 (amended): every report-assembling invocation of HandleCrash passes
to the annotation map exactly the fourteen fixed keys of `crashReportKeys`,
in order, for every environment — including environments in which every
underlying metric query failed (sentinel values); the key carrying the
elapsed time is the literal "Time elapsed: ", with a trailing colon and
space, and the "Breadcrumbs" / "Warnings" inserts of lines 385-386 never
execute (their argument construction throws first). -/
theorem handleCrash_fixed_keys (env : CrashEnv) (st : CMState) (info : String) (ab : Bool)
    (h : st.insideCrashMethod = false) :
    (HandleCrash env st info ab).inserted.map Prod.fst = crashReportKeys := by
  rw [handleCrash_inserted env st info ab h, handleCrashKvs_keys]

/-- Witness: the fourteen inserted keys at a concrete invocation. -/
theorem handleCrash_fixed_keys_inst :
    (HandleCrash demoEnv demoState "TestReason" true).inserted.map Prod.fst = crashReportKeys :=
  handleCrash_fixed_keys demoEnv demoState "TestReason" true rfl

/-- Counterexample to C3 as stated: the key "Time elapsed" is never
inserted — the code's literal is "Time elapsed: " — and the keys
"Breadcrumbs" and "Warnings" are never inserted either, because the
argument construction of those two inserts throws before `insert` can
run; the inserted key set therefore differs from the sixteen contract
keys the claim lists. -/
theorem handleCrash_keys_cex :
    (HandleCrash demoEnv demoState "SomeCrash" true).inserted.map Prod.fst ≠ claimedContractKeys
    ∧ "Time elapsed" ∉ (HandleCrash demoEnv demoState "SomeCrash" true).inserted.map Prod.fst
    ∧ "Time elapsed: " ∈ (HandleCrash demoEnv demoState "SomeCrash" true).inserted.map Prod.fst
    ∧ "Breadcrumbs" ∉ (HandleCrash demoEnv demoState "SomeCrash" true).inserted.map Prod.fst
    ∧ "Warnings" ∉ (HandleCrash demoEnv demoState "SomeCrash" true).inserted.map Prod.fst := by
  have hkeys : (HandleCrash demoEnv demoState "SomeCrash" true).inserted.map Prod.fst
      = crashReportKeys := rfl
  rw [hkeys]
  refine ⟨by decide, by decide, by decide, by decide, by decide⟩

/-- Counterexample to C7 as stated: the claim asserts a non-abnormal
disposition ("abort is not called") for the AtExit report; on a concrete
active-engine environment the AtExit invocation does terminate via abort —
`HandleCrash` is invoked with `callAbort = false`, but the throwing
"Breadcrumbs" insert drives the noexcept function into std::terminate,
whose handler re-enters `HandleCrash` against the set latch and aborts. -/
theorem handleExit_abort_cex :
    HandleExit demoEnv demoState = some (HandleCrash demoEnv demoState "AtExit" false)
    ∧ (HandleCrash demoEnv demoState "AtExit" false).aborted = true
    ∧ ¬ ((HandleCrash demoEnv demoState "AtExit" false).aborted = false) := by
  refine ⟨rfl, rfl, by decide⟩

/-- C7 (amended): at normal process exit (no crash processing underway), a
report with reason exactly "AtExit" is assembled — `HandleCrash` is invoked
with `callAbort = false`, and the "Crash reason" pair carries "AtExit" — if
and only if the engine reports itself initialized; the invocation
nevertheless terminates the process via abort, through the throwing
"Breadcrumbs" insert in the noexcept `HandleCrash`, not through the
explicit `callAbort` branch.  With the engine inactive, HandleExit does
nothing. -/
theorem handleExit_spec (env : CrashEnv) (st : CMState) (h : st.insideCrashMethod = false) :
    (env.obsInit = true →
      HandleExit env st = some (HandleCrash env st "AtExit" false)
      ∧ ("Crash reason", "AtExit") ∈ (HandleCrash env st "AtExit" false).inserted
      ∧ (HandleCrash env st "AtExit" false).aborted = true)
    ∧ (env.obsInit = false → HandleExit env st = none) := by
  constructor
  · intro hobs
    refine ⟨by simp [HandleExit, hobs], ?_, handleCrash_always_aborts env st "AtExit" false⟩
    rw [handleCrash_inserted env st "AtExit" false h]
    simp [handleCrashKvs]
  · intro hobs
    simp [HandleExit, hobs]

/-- Witness: the AtExit report at a concrete active-engine environment. -/
theorem handleExit_spec_inst :
    HandleExit demoEnv demoState = some (HandleCrash demoEnv demoState "AtExit" false)
    ∧ ("Crash reason", "AtExit") ∈ (HandleCrash demoEnv demoState "AtExit" false).inserted
    ∧ (HandleCrash demoEnv demoState "AtExit" false).aborted = true :=
  (handleExit_spec demoEnv demoState rfl).1 rfl

/-- Annotation map after a report-assembling invocation: the global map
with the fourteen executed inserts applied. -/
lemma handleCrash_state_map (env : CrashEnv) (st : CMState) (info : String) (ab : Bool)
    (h : st.insideCrashMethod = false) :
    (HandleCrash env st info ab).state.annotationsMap
      = (handleCrashKvs env st info).foldl mapInsert st.annotationsMap := by
  simp [handleCrash_notInside env st info ab h]

/-- `std::map::insert` with a key bound nowhere in the map adds the pair. -/
lemma mapInsert_notMem (m : List (String × String)) (kv : String × String)
    (h : ∀ e ∈ m, e.1 ≠ kv.1) : mapInsert m kv = m ++ [kv] := by
  have hfalse : m.any (fun e => e.1 == kv.1) = false := by
    rw [List.any_eq_false]
    intro e he
    simp only [beq_iff_eq]
    exact h e he
  simp [mapInsert, hfalse]

/-- A sequence of inserts whose keys are fresh for the map and pairwise
distinct appends all its pairs, in order. -/
lemma foldl_mapInsert_append : ∀ (kvs m : List (String × String)),
    (∀ kv ∈ kvs, ∀ e ∈ m, e.1 ≠ kv.1) → (kvs.map Prod.fst).Nodup →
    kvs.foldl mapInsert m = m ++ kvs := by
  intro kvs
  induction kvs with
  | nil => intro m _ _; simp
  | cons kv rest ih =>
    intro m hdisj hnd
    have h1 : mapInsert m kv = m ++ [kv] :=
      mapInsert_notMem m kv (hdisj kv (List.mem_cons_self kv rest))
    rw [List.foldl_cons, h1, ih (m ++ [kv]) ?_ ?_]
    · simp
    · intro kv2 hkv2 e he
      rcases List.mem_append.mp he with hm | hkv
      · exact hdisj kv2 (List.mem_cons_of_mem kv hkv2) e hm
      · have he1 : e = kv := by simpa using hkv
        subst he1
        intro heq
        have : kv2.1 ∈ rest.map Prod.fst := List.mem_map_of_mem Prod.fst hkv2
        rw [← heq] at this
        exact (List.nodup_cons.mp (by simpa using hnd)).1 this
    · exact (List.nodup_cons.mp (by simpa using hnd)).2

/-- C9: the annotation map holds only values computed during the one report
that a process can ever assemble.  Every invocation of HandleCrash ends in
abort and never returns (a report-assembling one aborts through the
throwing "Breadcrumbs" insert, a reentrant one through the latch), so at
most one report-assembling invocation occurs per process, and it runs
against the pristine empty global map: afterwards the map consists exactly
of the pairs inserted during that invocation, and no value from a previous
crash occurrence can persist into a later report, because control never
returns from HandleCrash to allow a later occurrence. -/
theorem annotationsMap_rebuilt :
    (∀ (env : CrashEnv) (st : CMState) (info : String) (ab : Bool),
      (HandleCrash env st info ab).aborted = true)
    ∧ (∀ (env : CrashEnv) (logs : OBSLogState) (info : String) (ab : Bool),
      (HandleCrash env ⟨false, [], logs⟩ info ab).state.annotationsMap
        = (HandleCrash env ⟨false, [], logs⟩ info ab).inserted) := by
  refine ⟨handleCrash_always_aborts, ?_⟩
  intro env logs info ab
  rw [handleCrash_state_map env ⟨false, [], logs⟩ info ab rfl,
    handleCrash_inserted env ⟨false, [], logs⟩ info ab rfl]
  show (handleCrashKvs env ⟨false, [], logs⟩ info).foldl mapInsert []
      = handleCrashKvs env ⟨false, [], logs⟩ info
  have hnd : ((handleCrashKvs env ⟨false, [], logs⟩ info).map Prod.fst).Nodup := by
    rw [handleCrashKvs_keys]
    decide
  rw [foldl_mapInsert_append (handleCrashKvs env ⟨false, [], logs⟩ info) []
    (by intro kv _ e he; cases he) hnd]
  simp
